import Mathlib

/-!
Shallow embedding of the `Consciousness_analysis` scripts
(`analyze_theories.py`, `update_theory.py`, `summary.py`,
`analysis_viewer.py`).

JSON documents are modelled by the inductive `Json` below (numbers are
modelled as integers; the scripts never compute with fractional JSON
numbers in the behaviour under study).  Python strings are modelled by
Lean `String` (slicing counts characters, as in Python), file contents
read from disk are passed in as explicit parameters, and code that can
raise is modelled with `Option`/`Except`.
-/

/-- JSON values as produced by Python's `json.load`/`json.loads`.
Numbers are modelled as integers. -/
inductive Json where
  | null : Json
  | bool (b : Bool) : Json
  | num (n : Int) : Json
  | str (s : String) : Json
  | arr (items : List Json) : Json
  | obj (fields : List (String × Json)) : Json

mutual

/-- Python `==` on JSON values.  Python treats `bool` as a subtype of
`int`, so `True == 1` and `False == 0`.  Lists compare elementwise.
Dicts are compared by their field lists here; Python dict equality is
key-order-insensitive, but in every modelled call site (set membership
checks) an unhashable value raises `TypeError` before `==` is reached,
and `json.load` keeps key order, so the difference is unobservable. -/
def pyEq : Json → Json → Bool
  | .null, .null => true
  | .bool a, .bool b => a == b
  | .bool a, .num n => (if a then (1 : Int) else 0) == n
  | .num n, .bool a => n == (if a then (1 : Int) else 0)
  | .num a, .num b => a == b
  | .str a, .str b => a == b
  | .arr a, .arr b => pyEqList a b
  | .obj a, .obj b => pyEqFields a b
  | _, _ => false

/-- Python `==` on lists of JSON values, elementwise. -/
def pyEqList : List Json → List Json → Bool
  | [], [] => true
  | a :: as, b :: bs => pyEq a b && pyEqList as bs
  | _, _ => false

/-- Python `==` on dict field lists (see the caveat on `pyEq`). -/
def pyEqFields : List (String × Json) → List (String × Json) → Bool
  | [], [] => true
  | (k, v) :: as, (k2, v2) :: bs => k == k2 && pyEq v v2 && pyEqFields as bs
  | _, _ => false

end

/-- First binding of a key in a JSON object's field list (Python `dict`
lookup; objects produced by `json.load` have unique keys). -/
def lookupField (fields : List (String × Json)) (key : String) : Option Json :=
  match fields with
  | [] => none
  | (k, v) :: rest => if k = key then some v else lookupField rest key

/-- Python `d[key] = v` on a dict: replace the value in place if the key
is present (insertion order is preserved), else append a new binding. -/
def dictSetJson (fields : List (String × Json)) (key : String) (v : Json) :
    List (String × Json) :=
  match fields with
  | [] => [(key, v)]
  | (k, w) :: rest =>
    if k = key then (k, v) :: rest else (k, w) :: dictSetJson rest key v

/-- Python truthiness of a JSON value (`if not claims: ...`). -/
def pyTruthy : Json → Bool
  | .null => false
  | .bool b => b
  | .num n => n != 0
  | .str s => s != ""
  | .arr items => !items.isEmpty
  | .obj fields => !fields.isEmpty

/-- Python `len` on a JSON value: defined for lists, dicts and strings,
raises `TypeError` (modelled as `none`) otherwise. -/
def pyLen : Json → Option Nat
  | .arr items => some items.length
  | .obj fields => some fields.length
  | .str s => some s.length
  | _ => none

/-- Whether a JSON value is hashable in Python (may be put in a `set`):
`None`, booleans, numbers and strings are, lists and dicts are not. -/
def isHashable : Json → Bool
  | .arr _ => false
  | .obj _ => false
  | _ => true

-- ================================
-- Exceptions and the tenacity retry decorator
-- ================================

/-- The Python exception classes relevant to the scripts' retry
configuration.  `other` stands for any exception outside the transient
tuple (for example `ValueError`); `jsonDecodeError` is
`json.JSONDecodeError`. -/
inductive PyExn where
  | readTimeout : PyExn
  | connectTimeout : PyExn
  | httpError : PyExn
  | timeoutError : PyExn
  | jsonDecodeError : PyExn
  | other (name : String) : PyExn
deriving DecidableEq

/-- `retry_if_exception_type((ReadTimeout, ConnectTimeout, HTTPError,
TimeoutError))` from `analyze_theories.py` / `summary.py`: the retry
predicate matching exactly the transient exception tuple. -/
def isTransientExn : PyExn → Bool
  | .readTimeout => true
  | .connectTimeout => true
  | .httpError => true
  | .timeoutError => true
  | _ => false

/-- Outcome of running a tenacity-decorated callable: a normal return,
the original exception propagating, or a `tenacity.RetryError` wrapping
the last attempt's exception. -/
inductive RetryOutcome (ε α : Type) where
  | ok (a : α) : RetryOutcome ε α
  | raised (e : ε) : RetryOutcome ε α
  | retryError (e : ε) : RetryOutcome ε α
deriving DecidableEq

/-- One iteration of tenacity's retry loop.  `f n` is the result of the
n-th attempt (1-based).  After a failing attempt the retry predicate is
consulted first: a non-matching exception propagates at once; otherwise
`stop_after_attempt` is consulted, and on stop the last exception is
re-raised when `reraise=True`, else wrapped in `RetryError`.  `fuel`
bounds the recursion and is initialised to `stopAfter`, so it never runs
out before the stop condition fires. -/
def tenacityGo {ε α : Type} (stopAfter : Nat) (shouldRetry : ε → Bool)
    (reraise : Bool) (f : Nat → Except ε α) :
    Nat → Nat → RetryOutcome ε α × Nat
  | attempt, fuel =>
    match f attempt with
    | .ok a => (.ok a, attempt)
    | .error e =>
      if shouldRetry e then
        if stopAfter ≤ attempt then
          ((if reraise then .raised e else .retryError e), attempt)
        else
          match fuel with
          | 0 => (.retryError e, attempt)
          | fuel' + 1 => tenacityGo stopAfter shouldRetry reraise f (attempt + 1) fuel'
      else (.raised e, attempt)

/-- Run a tenacity-decorated callable to completion, returning the final
outcome together with the number of attempts actually made. -/
def tenacityRun {ε α : Type} (stopAfter : Nat) (shouldRetry : ε → Bool)
    (reraise : Bool) (f : Nat → Except ε α) : RetryOutcome ε α × Nat :=
  tenacityGo stopAfter shouldRetry reraise f 1 stopAfter

/-- tenacity's `wait_exponential(multiplier, min, max)`: the sleep before
retrying after attempt number `attempt` (1-based) is
`multiplier * 2 ^ (attempt - 1)` clamped into `[min, max]` (and below by
0). -/
def wait_exponential (multiplier mn mx : ℚ) (attempt : Nat) : ℚ :=
  max (max 0 mn) (min (multiplier * 2 ^ (attempt - 1)) mx)

/-- The `retryable` decorator of `analyze_theories.py`:
`stop_after_attempt(4)`, transient-only retry predicate,
`reraise=True`, applied to a callable. -/
def retryable {α : Type} (f : Nat → Except PyExn α) : RetryOutcome PyExn α × Nat :=
  tenacityRun 4 isTransientExn true f

/-- The `retryable` decorator of `summary.py` (textually identical
configuration to the analyzer's: `stop_after_attempt(4)`, transient-only
retry, `reraise=True`). -/
def summary_retryable {α : Type} (f : Nat → Except PyExn α) :
    RetryOutcome PyExn α × Nat :=
  tenacityRun 4 isTransientExn true f

/-- The `@retry(stop=stop_after_attempt(3), wait=wait_exponential(...))`
decorator on `update_theory_with_gpt5` in `update_theory.py`: no
`retry=` argument, so tenacity's default predicate retries on any
exception, and no `reraise=True`, so exhaustion raises
`tenacity.RetryError` instead of the original exception. -/
def update_theory_retry {α : Type} (f : Nat → Except PyExn α) :
    RetryOutcome PyExn α × Nat :=
  tenacityRun 3 (fun _ => true) false f

/-- Backoff configured in `analyze_theories.py` and `summary.py`:
`wait_exponential(multiplier=1.8, min=2, max=60)`. -/
def analyzer_wait (attempt : Nat) : ℚ :=
  wait_exponential (9 / 5) 2 60 attempt

/-- Backoff configured in `update_theory.py`:
`wait_exponential(multiplier=2, min=10, max=120)`. -/
def updater_wait (attempt : Nat) : ℚ :=
  wait_exponential 2 10 120 attempt

-- ================================
-- sanitize_filename (analyze_theories.py)
-- ================================

/-- Python `s.replace(old, new)` for a one-character pattern, on a string
modelled as a list of characters. -/
def pyReplace (s : List Char) (old : Char) (new : List Char) : List Char :=
  s.foldr (fun c acc => if c = old then new ++ acc else c :: acc) []

/-- The characters removed by `sanitize_filename`
(`invalid_chars = '<>:"/\\|?*'`). -/
def invalid_chars : List Char :=
  ['<', '>', ':', '"', '/', '\\', '|', '?', '*']

/-- `sanitize_filename` from `analyze_theories.py`: strip the invalid
filename characters, replace spaces with underscores, drop commas and
periods, and truncate to 100 characters. -/
def sanitize_filename (title : List Char) : List Char :=
  let t1 := invalid_chars.foldl (fun s c => pyReplace s c []) title
  let t2 := pyReplace (pyReplace (pyReplace t1 ' ' ['_']) ',' []) '.' []
  t2.take 100

-- ================================
-- Duplicate-processing guard (analyze_theories.py)
-- ================================

/-- One entry of the processed-papers log
(`processed_papers.json`), keyed by PDF filename.  Entries written by
`save_processed_paper` carry all four fields; `is_already_processed`
reads `file_hash` and `output_file` with `.get`, which tolerates missing
keys, hence the `Option` types. -/
structure ProcEntry where
  file_hash : Option String
  processed_at : Option String
  output_file : Option String
  paper_title : Option String

/-- `is_already_processed` from `analyze_theories.py`.  The log contents
are passed in (instead of being read from `processed_papers.json`),
`currentHash` is the hex MD5 digest of the PDF's current bytes (the
hash computation itself is not modelled), and `outputExists f` tells
whether `OUTPUT_DIR / f` exists on disk.  Python's
`if output_file and ...` treats `None` and the empty string as falsy. -/
def is_already_processed (processed : List (String × ProcEntry))
    (outputExists : String → Bool) (pdfName : String)
    (currentHash : String) : Bool :=
  match processed.lookup pdfName with
  | none => false
  | some entry =>
    if entry.file_hash ≠ some currentHash then false
    else
      match entry.output_file with
      | some f => f ≠ "" && outputExists f
      | none => false

-- ================================
-- analyze_with_store (analyze_theories.py)
-- ================================

/-- Python's `s[:n]` character slice. -/
def pySlice (s : String) (n : Nat) : String :=
  (s.toList.take n).asString

/-- The JSON-parsing tail of `analyze_with_store` in
`analyze_theories.py`.  `responseText` is the model's `output_text`
(after the `or ""` default) and `parsed` is the result of
`json.loads responseText` (`none` models a raised `JSONDecodeError`).
On a parse failure the error is logged and a stub object with an
`error` message and the first 1000 characters of the raw response is
returned instead of raising. -/
def analyze_with_store (responseText : String) (parsed : Option Json) : Json :=
  match parsed with
  | some result => result
  | none =>
    .obj [("error", .str "Failed to parse response"),
          ("raw_response", .str (pySlice responseText 1000))]

-- ================================
-- Analysis viewer (analysis_viewer.py)
-- ================================

/-- A file of the output directory as seen by the viewer: its name and
the result of `json.load` on it (`none` models a file whose load or
parse raises). -/
structure DirEntry where
  name : String
  parse : Option Json

/-- Does `s` end with `pat`?  Used for the `*.json` glob pattern of
`pathlib.Path.glob`, which does not special-case dotfiles.  Defined on
character lists so that closed terms evaluate. -/
def strEndsWith (s pat : String) : Bool :=
  pat.toList.length ≤ s.toList.length &&
    s.toList.drop (s.toList.length - pat.toList.length) == pat.toList

/-- Does `s` start with `pat`?  Used for the `analysis_*.json` glob. -/
def strStartsWith (s pat : String) : Bool :=
  s.toList.take pat.toList.length == pat.toList

/-- The sort key `p.get('_metadata', {}).get('analysis_timestamp', '')`
used by `load_analysis_results`.  The default `''` applies when
`_metadata` is absent or when it is a dict without the timestamp.
`none` models the cases in which Python would raise while sorting
(`_metadata` present but not a dict, or a non-string timestamp, whose
comparison against strings raises `TypeError`); such directories are
outside the behaviour modelled here. -/
def sortKey (p : Json) : Option String :=
  match p with
  | .obj fields =>
    match lookupField fields "_metadata" with
    | none => some ""
    | some (.obj mfields) =>
      match lookupField mfields "analysis_timestamp" with
      | none => some ""
      | some (.str s) => some s
      | some _ => none
    | some _ => none
  | _ => none

/-- The sort key with its `''` default filled in. -/
def sortKeyD (p : Json) : String :=
  (sortKey p).getD ""

/-- Python `<` on strings, which compares code points lexicographically,
on strings viewed as character lists. -/
def pyLtChars : List Char → List Char → Bool
  | [], [] => false
  | [], _ :: _ => true
  | _ :: _, [] => false
  | a :: as, b :: bs =>
    if a < b then true else if b < a then false else pyLtChars as bs

/-- Python `a < b` on strings. -/
def pyStrLt (a b : String) : Bool := pyLtChars a.toList b.toList

/-- Python `a <= b` on strings. -/
def pyStrLe (a b : String) : Bool := !(pyStrLt b a)

theorem pyLtChars_irrefl (a : List Char) : pyLtChars a a = false := by
  induction a with
  | nil => rfl
  | cons c cs ih => simp [pyLtChars, ih]

theorem pyLtChars_asymm (a b : List Char) (h : pyLtChars a b = true) :
    pyLtChars b a = false := by
  induction a generalizing b with
  | nil =>
    cases b with
    | nil => simp [pyLtChars] at h
    | cons y ys => simp [pyLtChars]
  | cons x xs ih =>
    cases b with
    | nil => simp [pyLtChars] at h
    | cons y ys =>
      by_cases hxy : x < y
      · simp [pyLtChars, hxy, asymm hxy]
      · by_cases hyx : y < x
        · simp [pyLtChars, hxy, hyx] at h
        · simp only [pyLtChars, if_neg hxy, if_neg hyx] at h
          simp [pyLtChars, hxy, hyx, ih ys h]

theorem pyLtChars_connex (a b : List Char) (hab : pyLtChars a b = false)
    (hba : pyLtChars b a = false) : a = b := by
  induction a generalizing b with
  | nil =>
    cases b with
    | nil => rfl
    | cons y ys => simp [pyLtChars] at hab
  | cons x xs ih =>
    cases b with
    | nil => simp [pyLtChars] at hba
    | cons y ys =>
      by_cases hxy : x < y
      · simp [pyLtChars, hxy] at hab
      · by_cases hyx : y < x
        · simp [pyLtChars, hyx] at hba
        · have hx : x = y := le_antisymm (not_lt.mp hyx) (not_lt.mp hxy)
          subst hx
          simp only [pyLtChars, if_neg hxy, lt_irrefl, if_neg hyx] at hab hba
          rw [ih ys hab hba]

theorem pyLtChars_trans (a b c : List Char) (hab : pyLtChars a b = true)
    (hbc : pyLtChars b c = true) : pyLtChars a c = true := by
  induction a generalizing b c with
  | nil =>
    cases c with
    | nil =>
      cases b with
      | nil => simp [pyLtChars] at hab
      | cons y ys => simp [pyLtChars] at hbc
    | cons z zs => simp [pyLtChars]
  | cons x xs ih =>
    cases b with
    | nil => simp [pyLtChars] at hab
    | cons y ys =>
      cases c with
      | nil => simp [pyLtChars] at hbc
      | cons z zs =>
        by_cases hxy : x < y
        · by_cases hyz : y < z
          · simp [pyLtChars, lt_trans hxy hyz]
          · by_cases hzy : z < y
            · simp [pyLtChars, hyz, hzy] at hbc
            · have : y = z := le_antisymm (not_lt.mp hzy) (not_lt.mp hyz)
              subst this
              simp [pyLtChars, hxy]
        · by_cases hyx : y < x
          · simp [pyLtChars, hxy, hyx] at hab
          · have hx : x = y := le_antisymm (not_lt.mp hyx) (not_lt.mp hxy)
            subst hx
            simp only [pyLtChars, if_neg hxy, lt_irrefl, if_neg hyx] at hab
            by_cases hyz : x < z
            · simp [pyLtChars, hyz]
            · by_cases hzy : z < x
              · simp [pyLtChars, hyz, hzy] at hbc
              · simp only [pyLtChars, if_neg hyz, if_neg hzy] at hbc ⊢
                exact ih ys zs hab hbc

theorem pyStrLe_total (a b : String) : pyStrLe a b = true ∨ pyStrLe b a = true := by
  unfold pyStrLe pyStrLt
  cases h : pyLtChars b.toList a.toList with
  | false => left; rfl
  | true => right; rw [pyLtChars_asymm _ _ h]; rfl

theorem pyStrLe_trans (a b c : String) (hab : pyStrLe a b = true)
    (hbc : pyStrLe b c = true) : pyStrLe a c = true := by
  unfold pyStrLe pyStrLt at hab hbc ⊢
  rw [Bool.not_eq_true'] at hab hbc ⊢
  cases hca : pyLtChars c.toList a.toList with
  | false => rfl
  | true =>
    exfalso
    cases hbc2 : pyLtChars b.toList c.toList with
    | true =>
      have := pyLtChars_trans _ _ _ hbc2 hca
      rw [this] at hab
      exact Bool.noConfusion hab
    | false =>
      have heq : b.toList = c.toList := pyLtChars_connex _ _ hbc2 hbc
      rw [← heq] at hca
      rw [hca] at hab
      exact Bool.noConfusion hab

/-- Comparison backing `papers.sort(key=..., reverse=True)`: `a` may
come before `b` when `a`'s key is at least `b`'s key (Python's stable
sort with `reverse=True` keeps original order among equal keys, which a
stable insertion sort under this relation reproduces). -/
def tsDescOk (a b : Json) : Prop :=
  pyStrLe (sortKeyD b) (sortKeyD a) = true

instance : DecidableRel tsDescOk := fun _ _ =>
  inferInstanceAs (Decidable (_ = true))

instance : IsTotal Json tsDescOk :=
  ⟨fun a b => pyStrLe_total (sortKeyD b) (sortKeyD a)⟩

instance : IsTrans Json tsDescOk :=
  ⟨fun _ _ _ hab hbc => pyStrLe_trans _ _ _ hbc hab⟩

/-- `load_analysis_results` from `analysis_viewer.py`.  Globs `*.json`
in the output directory, loads each file inside `try`/`except` (a
failing file is logged and skipped), and sorts the loaded records by
descending timestamp with Python's stable sort (modelled by a stable
insertion sort).  `none` models a `TypeError` raised while sorting
records with ill-typed metadata (see `sortKey`); when the directory is
missing the empty list is returned together with an error message. -/
def load_analysis_results (dirExists : Bool) (files : List DirEntry) :
    Option (List Json × Option String) :=
  if !dirExists then
    some ([], some "Output directory not found")
  else
    let json_files := files.filter (fun e => strEndsWith e.name ".json")
    let papers := json_files.filterMap (fun e => e.parse)
    if papers.all (fun p => (sortKey p).isSome) then
      some (papers.insertionSort tsDescOk, none)
    else
      none

mutual

/-- Python `repr` of a JSON value (used by `str()` on non-string
values).  Escaping and quote-switching for exotic strings is not
modelled; in the modelled call site (`claim_counts[str(claim)]`)
unhashable values raise `TypeError` before `str` is reached, so the
list and dict branches are unreachable there. -/
def pyRepr : Json → String
  | .null => "None"
  | .bool true => "True"
  | .bool false => "False"
  | .num n => toString n
  | .str s => "'" ++ s ++ "'"
  | .arr items => "[" ++ pyReprList items ++ "]"
  | .obj fields => "\x7b" ++ pyReprFields fields ++ "\x7d"

/-- Comma-joined `repr`s of list elements. -/
def pyReprList : List Json → String
  | [] => ""
  | [x] => pyRepr x
  | x :: xs => pyRepr x ++ ", " ++ pyReprList xs

/-- Comma-joined `repr`s of dict fields. -/
def pyReprFields : List (String × Json) → String
  | [] => ""
  | [(k, v)] => "'" ++ k ++ "': " ++ pyRepr v
  | (k, v) :: rest => "'" ++ k ++ "': " ++ pyRepr v ++ ", " ++ pyReprFields rest

end

/-- Python `str` of a JSON value: the identity on strings, `repr`
otherwise. -/
def pyStr : Json → String
  | .str s => s
  | j => pyRepr j

/-- Python `j.get(key, default)`: `none` models the `AttributeError`
raised when the receiver is not a dict. -/
def pyGetD (j : Json) (key : String) (default : Json) : Option Json :=
  match j with
  | .obj fields => some ((lookupField fields key).getD default)
  | _ => none

/-- `extract_claims_list` from `analysis_viewer.py`.  Falsy input gives
`[]`; a dict with an `items` key gives that value if it is a list, or a
singleton if it is an `int` (which includes `bool` in Python) or `str`;
a dict whose `items` value has any other type, or without an `items`
key, gives `[]` (the `elif 'type' ...` branch only runs when `items` is
absent, so its `claims.get('items', [])` is always the `[]` default); a
list is returned as is; anything else gives `[]`. -/
def extract_claims_list (claims : Json) : List Json :=
  if !pyTruthy claims then []
  else
    match claims with
    | .obj fields =>
      match lookupField fields "items" with
      | some (.arr items) => items
      | some (.num n) => [.num n]
      | some (.bool b) => [.bool b]
      | some (.str s) => [.str s]
      | some _ => []
      | none => []
    | .arr items => items
    | _ => []

/-- Insertion into the Python set `unique_claims` (membership under
Python `==`); only called on hashable values. -/
def pySetInsert (s : List Json) (x : Json) : List Json :=
  if s.any (fun y => pyEq y x) then s else s ++ [x]

/-- `claim_counts[claim_str] = claim_counts.get(claim_str, 0) + 1` on an
insertion-ordered dict. -/
def dictIncr : List (String × Nat) → String → List (String × Nat)
  | [], k => [(k, 1)]
  | (k2, v) :: rest, k =>
    if k2 = k then (k2, v + 1) :: rest else (k2, v) :: dictIncr rest k

/-- The mutable state of `calculate_statistics`'s loop. -/
structure StatsState where
  total_claims : Nat
  unique_claims : List Json
  total_insights : Nat
  claim_counts : List (String × Nat)

/-- One loop iteration of `calculate_statistics` over a single paper.
`none` models a raised exception: the paper is not a dict (`.get`
fails), a claim is unhashable (`unique_claims.update` raises
`TypeError`), or `len` is applied to a non-sized insights value. -/
def calculate_statistics_step (st : StatsState) (paper : Json) :
    Option StatsState :=
  match pyGetD paper "supported_claims" (.arr []) with
  | none => none
  | some sc =>
    let claims := extract_claims_list sc
    if claims.all isHashable then
      match pyGetD paper "additional_or_contradictory_insights" (.arr []) with
      | none => none
      | some insights =>
        match pyLen insights with
        | none => none
        | some k =>
          some { total_claims := st.total_claims + claims.length,
                 unique_claims := claims.foldl pySetInsert st.unique_claims,
                 total_insights := st.total_insights + k,
                 claim_counts :=
                   claims.foldl (fun cc c => dictIncr cc (pyStr c)) st.claim_counts }
    else none

/-- A value of the statistics dict returned by `calculate_statistics`:
either a count or the nested `claim_counts` dict. -/
inductive StatVal where
  | num (n : Nat) : StatVal
  | dict (entries : List (String × Nat)) : StatVal
deriving DecidableEq

/-- `calculate_statistics` from `analysis_viewer.py`: tallies
`total_claims`, `unique_claims`, `total_insights` and `claim_counts`
over the loaded papers and returns them as a dict (modelled as an
association list in insertion order).  `none` models a raised
exception (see `calculate_statistics_step`). -/
def calculate_statistics (papers : List Json) : Option (List (String × StatVal)) :=
  (papers.foldlM calculate_statistics_step ⟨0, [], 0, []⟩).map fun st =>
    [("total_claims", .num st.total_claims),
     ("unique_claims", .num st.unique_claims.length),
     ("total_insights", .num st.total_insights),
     ("claim_counts", .dict st.claim_counts)]

/-- The Flask route table of `analysis_viewer.py`: the only
`@app.route` decorator in the file registers `/`. -/
def viewer_routes : List String := ["/"]

/-- The data handed by `index` to `render_template_string`. -/
structure IndexPage where
  papers : List Json
  error : Option String
  theory : Option Json
  stats : List (String × StatVal)

/-- The `index` view of `analysis_viewer.py` (route `/`): load the
analysis results, compute their statistics, load the cumulative theory
and render the dashboard from them.  `none` models a raised
exception in either step. -/
def index (dirExists : Bool) (files : List DirEntry) (theory : Option Json) :
    Option IndexPage :=
  match load_analysis_results dirExists files with
  | none => none
  | some (papers, err) =>
    match calculate_statistics papers with
    | none => none
    | some stats => some ⟨papers, err, theory, stats⟩

-- ================================
-- Theory updater (update_theory.py)
-- ================================

/-- Outcome of one `client.chat.completions.create` call followed by
`json.loads` on the returned message content, as seen by one attempt of
`update_theory_with_gpt5`: the API call raised, the content failed to
parse, or a JSON value was obtained. -/
inductive LlmOutcome where
  | apiError (e : PyExn) : LlmOutcome
  | parseError : LlmOutcome
  | ok (result : Json) : LlmOutcome

/-- `j.get(k1, {}).get(k2, default)`; `none` models the
`AttributeError` raised when a receiver is not a dict. -/
def pyGetD2 (j : Json) (k1 k2 : String) (default : Json) : Option Json :=
  match pyGetD j k1 (.obj []) with
  | none => none
  | some inner => pyGetD inner k2 default

/-- `incorporated = current_theory.get('incorporated_analyses', []) if
current_theory else []` from `update_theory_with_gpt5`, together with
the subsequent `.append`'s requirement that the value be a list.
`none` models a raised exception (truthy non-dict theory, or a
non-list `incorporated_analyses` value). -/
def incorporatedOf (current_theory : Option Json) : Option (List Json) :=
  match current_theory with
  | none => some []
  | some ct =>
    if !pyTruthy ct then some []
    else
      match ct with
      | .obj fields =>
        match (lookupField fields "incorporated_analyses").getD (.arr []) with
        | .arr xs => some xs
        | _ => none
      | _ => none

/-- The body of `update_theory_with_gpt5` from `update_theory.py` for a
single attempt, with the network call and `json.loads` outcome passed
in as `call`.  On success the parsed object gets a `_metadata` dict
(update timestamp, model used, `papers_incorporated =
len(all_analyses)`, latest paper title) and the extended
`incorporated_analyses` list; every raised exception is logged and
re-raised, which the surrounding `try`/`except` turns into `.error`. -/
def update_theory_with_gpt5 (current_theory : Option Json)
    (all_analyses : List Json) (new_analysis : Json) (model now : String)
    (call : LlmOutcome) : Except PyExn Json :=
  match call with
  | .apiError e => .error e
  | .parseError => .error .jsonDecodeError
  | .ok result =>
    match result with
    | .obj fields =>
      match pyGetD2 new_analysis "paper_metadata" "title" (.str "Unknown") with
      | none => .error (.other "AttributeError")
      | some title =>
        let md : Json := .obj
          [("update_timestamp", .str now),
           ("model_used", .str model),
           ("papers_incorporated", .num all_analyses.length),
           ("latest_paper", title)]
        let fields1 := dictSetJson fields "_metadata" md
        match incorporatedOf current_theory with
        | none => .error (.other "AttributeError")
        | some inc =>
          match pyGetD new_analysis "_filename" (.str "") with
          | none => .error (.other "AttributeError")
          | some fn =>
            .ok (.obj (dictSetJson fields1 "incorporated_analyses"
              (.arr (inc ++ [fn]))))
    | _ => .error (.other "TypeError")

/-- `update_theory_with_gpt5` as actually invoked: wrapped in the
updater's `@retry` decorator, with `calls n` the outcome of the n-th
attempt's API call and parse. -/
def update_theory_with_gpt5_retried (current_theory : Option Json)
    (all_analyses : List Json) (new_analysis : Json) (model now : String)
    (calls : Nat → LlmOutcome) : RetryOutcome PyExn Json × Nat :=
  update_theory_retry (fun n =>
    update_theory_with_gpt5 current_theory all_analyses new_analysis model now
      (calls n))

/-- The theory files on disk: `current_theory.json` (`none` when
missing or unparseable, as `load_current_theory` returns `None` for
both) and the accumulated timestamped backup files. -/
structure TheoryStore where
  current : Option Json
  backups : List (String × Json)

/-- `save_theory` from `update_theory.py`: overwrite
`current_theory.json` and also write a `theory_backup_<timestamp>.json`
copy. -/
def save_theory (store : TheoryStore) (backupTs : String) (theory : Json) :
    TheoryStore :=
  { current := some theory,
    backups := ("theory_backup_" ++ backupTs ++ ".json", theory) :: store.backups }

/-- Name-ordering of directory entries (`sorted` over glob results). -/
def nameLe (a b : DirEntry) : Prop := pyStrLe a.name b.name = true

instance : DecidableRel nameLe := fun _ _ =>
  inferInstanceAs (Decidable (_ = true))

/-- `load_all_analyses` from `update_theory.py`: glob
`analysis_*.json`, sort by filename, parse each file and stamp it with
`_filename`; any per-file exception (parse failure, or the `_filename`
assignment failing on a non-dict) is logged and the file skipped. -/
def load_all_analyses (files : List DirEntry) : List Json :=
  let json_files :=
    (files.filter (fun e =>
      strStartsWith e.name "analysis_" && strEndsWith e.name ".json")).insertionSort nameLe
  json_files.filterMap (fun e =>
    match e.parse with
    | some (.obj fields) =>
      some (.obj (dictSetJson fields "_filename" (.str e.name)))
    | _ => none)

/-- The loop body of `find_latest_analysis`: is this analysis's
`_filename` absent from the incorporated set?  `none` models a raised
exception (non-dict analysis, or an unhashable `_filename` value whose
set-membership test raises `TypeError`). -/
def notIncorporated (incorporated : List Json) (a : Json) : Option Bool :=
  match a with
  | .obj fields =>
    let fn := (lookupField fields "_filename").getD .null
    if isHashable fn then
      some (!(incorporated.any (fun inc => pyEq inc fn)))
    else none
  | _ => none

/-- First element satisfying an exception-throwing predicate: `none`
models the exception propagating, `some none` an exhausted loop. -/
def findExc {α : Type} (p : α → Option Bool) : List α → Option (Option α)
  | [] => some none
  | x :: rest =>
    match p x with
    | none => none
    | some true => some (some x)
    | some false => findExc p rest

/-- `find_latest_analysis` from `update_theory.py`: sort the analyses
by descending timestamp, and return the first not yet incorporated
into the current theory (all of them when there is no truthy current
theory).  The outer `Option` models a raised exception (ill-typed sort
keys, a truthy non-dict theory, an `incorporated_analyses` value that
is not a list of hashables — `set()` over non-list values is not
modelled). -/
def find_latest_analysis (analyses : List Json) (current_theory : Option Json) :
    Option (Option Json) :=
  if analyses.isEmpty then some none
  else if analyses.all (fun a => (sortKey a).isSome) then
    let sorted_analyses := analyses.insertionSort tsDescOk
    let truthy := match current_theory with
      | none => false
      | some j => pyTruthy j
    if !truthy then some sorted_analyses.head?
    else
      match current_theory with
      | some (.obj fields) =>
        match (lookupField fields "incorporated_analyses").getD (.arr []) with
        | .arr xs =>
          if xs.all isHashable then
            findExc (notIncorporated xs) sorted_analyses
          else none
        | _ => none
      | _ => none
  else none

/-- How a run of `update_cumulative_theory` ends: an uncaught exception
(the process dies with a traceback), or a normal return carrying
`None` (failure) or a theory document. -/
inductive RunResult where
  | crashed : RunResult
  | finished (result : Option Json) : RunResult

/-- The analysis-selection step of `update_cumulative_theory`: with
`--analysis <file>` the first analysis whose `_filename` equals the
given name (every element of `load_all_analyses` is a dict by
construction, so the `.get`-based comparison cannot raise), otherwise
`find_latest_analysis`. -/
def choose_analysis (all_analyses : List Json) (current_theory : Option Json)
    (specific_analysis : Option String) : Option (Option Json) :=
  match specific_analysis with
  | some name =>
    some (all_analyses.find? (fun a =>
      match a with
      | .obj fields => pyEq ((lookupField fields "_filename").getD .null) (.str name)
      | _ => false))
  | none => find_latest_analysis all_analyses current_theory

/-- `update_cumulative_theory` from `update_theory.py`: load the
current theory and all analyses, pick the analysis to incorporate
(`--analysis <file>` or the latest unincorporated one), run the
retried GPT update, and persist via `save_theory` on success; the
`try`/`except` around the update turns any exception from it into a
logged failure (`None`) with nothing written. -/
def update_cumulative_theory (store : TheoryStore) (files : List DirEntry)
    (specific_analysis : Option String) (model now backupTs : String)
    (calls : Nat → LlmOutcome) : TheoryStore × RunResult :=
  let current_theory := store.current
  let all_analyses := load_all_analyses files
  if all_analyses.isEmpty then (store, .finished none)
  else
    let chosen : Option (Option Json) :=
      choose_analysis all_analyses current_theory specific_analysis
    match chosen with
    | none => (store, .crashed)
    | some none =>
      match specific_analysis with
      | some _ => (store, .finished none)
      | none => (store, .finished current_theory)
    | some (some new_analysis) =>
      match (update_theory_with_gpt5_retried current_theory all_analyses
          new_analysis model now calls).1 with
      | .ok updated => (save_theory store backupTs updated, .finished (some updated))
      | _ => (store, .finished none)

-- ================================
-- Supporting lemmas
-- ================================

theorem pyReplace_nil (old : Char) (s : List Char) :
    pyReplace s old [] = s.filter (fun c => c != old) := by
  induction s with
  | nil => rfl
  | cons c s ih =>
    by_cases h : c = old
    · simp only [pyReplace, List.foldr_cons] at ih ⊢
      rw [if_pos h, ih, List.filter_cons]
      simp [h]
    · simp only [pyReplace, List.foldr_cons] at ih ⊢
      rw [if_neg h, ih, List.filter_cons]
      simp [h]

theorem pyReplace_single (old r : Char) (s : List Char) :
    pyReplace s old [r] = s.map (fun c => if c = old then r else c) := by
  induction s with
  | nil => rfl
  | cons c s ih =>
    by_cases h : c = old
    · simp only [pyReplace, List.foldr_cons] at ih ⊢
      rw [if_pos h, ih, List.map_cons, if_pos h]
      rfl
    · simp only [pyReplace, List.foldr_cons] at ih ⊢
      rw [if_neg h, ih, List.map_cons, if_neg h]

theorem mem_removeChars (cs : List Char) : ∀ (s : List Char) (c : Char),
    c ∈ cs.foldl (fun s d => pyReplace s d []) s → c ∈ s ∧ c ∉ cs := by
  induction cs with
  | nil =>
    intro s c h
    exact ⟨h, List.not_mem_nil c⟩
  | cons d cs ih =>
    intro s c h
    rw [List.foldl_cons] at h
    obtain ⟨h1, h2⟩ := ih (pyReplace s d []) c h
    rw [pyReplace_nil] at h1
    have h3 := List.mem_filter.mp h1
    refine ⟨h3.1, ?_⟩
    intro hmem
    rcases List.mem_cons.mp hmem with hcd | hcs
    · subst hcd
      simp at h3
    · exact h2 hcs

-- ================================
-- Claims
-- ================================

/-- C10: for every input title, `sanitize_filename` returns at most 100
characters, none of which is one of the removed invalid characters
`< > : " / \ | ? *`, a space, a comma or a period (spaces become
underscores, the other listed characters are removed). -/
theorem sanitize_filename_sanitizes (title : List Char) :
    (sanitize_filename title).length ≤ 100 ∧
    ∀ c ∈ sanitize_filename title,
      c ∉ invalid_chars ∧ c ≠ ' ' ∧ c ≠ ',' ∧ c ≠ '.' := by
  constructor
  · exact List.length_take_le 100 _
  · intro c hc
    unfold sanitize_filename at hc
    have hc2 := List.mem_of_mem_take hc
    rw [pyReplace_nil] at hc2
    have hdot := List.mem_filter.mp hc2
    rw [pyReplace_nil] at hdot
    have hcomma := List.mem_filter.mp hdot.1
    rw [pyReplace_single] at hcomma
    obtain ⟨d, hd, hdc⟩ := List.mem_map.mp hcomma.1
    by_cases hsp : d = ' '
    · rw [if_pos hsp] at hdc
      subst hdc
      refine ⟨by decide, by decide, ?_, ?_⟩
      · intro hc2
        rw [hc2] at hcomma
        simp at hcomma
      · intro hc2
        rw [hc2] at hdot
        simp at hdot
    · rw [if_neg hsp] at hdc
      subst hdc
      have := mem_removeChars invalid_chars title d hd
      exact ⟨this.2, hsp, by simpa using hcomma.2, by simpa using hdot.2⟩

/-- Closed instance of `sanitize_filename_sanitizes` at a concrete
title and character. -/
theorem sanitize_filename_sanitizes_witness :
    (sanitize_filename ['a', ' ', 'b', '?', '.']).length ≤ 100 ∧
    '_' ∉ invalid_chars ∧ '_' ≠ ' ' ∧ '_' ≠ ',' ∧ '_' ≠ '.' :=
  ⟨(sanitize_filename_sanitizes ['a', ' ', 'b', '?', '.']).1,
   (sanitize_filename_sanitizes ['a', ' ', 'b', '?', '.']).2 '_' (by decide)⟩

/-- C1: `is_already_processed` returns `True` exactly when the
processed-papers log has an entry under the PDF's filename whose stored
`file_hash` equals the MD5 hash of the PDF's current bytes and whose
recorded output file still exists in the output directory (the
hypothesis says the empty name denotes no file, matching Python's
falsy-string check); in particular a hash mismatch yields `False` even
though the filename is present. -/
theorem is_already_processed_iff (processed : List (String × ProcEntry))
    (outputExists : String → Bool) (pdfName currentHash : String)
    (hempty : outputExists "" = false) :
    (is_already_processed processed outputExists pdfName currentHash = true ↔
      ∃ entry, processed.lookup pdfName = some entry ∧
        entry.file_hash = some currentHash ∧
        ∃ f, entry.output_file = some f ∧ outputExists f = true) ∧
    (∀ entry, processed.lookup pdfName = some entry →
      entry.file_hash ≠ some currentHash →
      is_already_processed processed outputExists pdfName currentHash = false) := by
  constructor
  · cases hl : processed.lookup pdfName with
    | none => simp [is_already_processed, hl]
    | some entry =>
      by_cases hh : entry.file_hash = some currentHash
      · cases hf : entry.output_file with
        | none => simp [is_already_processed, hl, hh, hf]
        | some f =>
          by_cases hfe : f = ""
          · subst hfe
            simp [is_already_processed, hl, hh, hf, hempty]
          · simp [is_already_processed, hl, hh, hf, hfe]
      · simp [is_already_processed, hl, hh]
  · intro entry hl hne
    simp [is_already_processed, hl, hne]

/-- Closed instance of `is_already_processed_iff`: a log entry with a
matching hash and an existing output file. -/
theorem is_already_processed_iff_witness :
    ((is_already_processed
        [("a.pdf", ⟨some "h1", some "2024-01-01", some "A.json", some "T"⟩)]
        (fun f => f == "A.json") "a.pdf" "h1" = true ↔
      ∃ entry,
        ([("a.pdf",
            (⟨some "h1", some "2024-01-01", some "A.json", some "T"⟩ : ProcEntry))].lookup
          "a.pdf") = some entry ∧
        entry.file_hash = some "h1" ∧
        ∃ f, entry.output_file = some f ∧ (f == "A.json") = true) ∧
    (∀ entry,
      ([("a.pdf",
          (⟨some "h1", some "2024-01-01", some "A.json", some "T"⟩ : ProcEntry))].lookup
        "a.pdf") = some entry →
      entry.file_hash ≠ some "h1" →
      is_already_processed
        [("a.pdf", ⟨some "h1", some "2024-01-01", some "A.json", some "T"⟩)]
        (fun f => f == "A.json") "a.pdf" "h1" = false)) :=
  is_already_processed_iff
    [("a.pdf", ⟨some "h1", some "2024-01-01", some "A.json", some "T"⟩)]
    (fun f => f == "A.json") "a.pdf" "h1" (by decide)

theorem tenacityGo_const_error {ε α : Type} (stopAfter : Nat)
    (p : ε → Bool) (rr : Bool) (f : Nat → Except ε α) (e : ε)
    (hf : ∀ n, f n = .error e) (hp : p e = true) :
    ∀ (fuel attempt : Nat), attempt ≤ stopAfter → stopAfter ≤ attempt + fuel →
      tenacityGo stopAfter p rr f attempt fuel =
        ((if rr then .raised e else .retryError e), stopAfter) := by
  intro fuel
  induction fuel with
  | zero =>
    intro attempt h1 h2
    have heq : attempt = stopAfter := le_antisymm h1 (by simpa using h2)
    subst heq
    rw [tenacityGo, hf attempt]
    simp [hp]
  | succ fuel ih =>
    intro attempt h1 h2
    by_cases hstop : stopAfter ≤ attempt
    · have heq : attempt = stopAfter := le_antisymm h1 hstop
      subst heq
      rw [tenacityGo, hf attempt]
      simp [hp]
    · rw [tenacityGo, hf attempt]
      simp only [hp, if_true, if_neg hstop]
      exact ih (attempt + 1) (Nat.succ_le_of_lt (lt_of_not_le hstop)) (by omega)

theorem tenacityRun_const_error {ε α : Type} (stopAfter : Nat)
    (p : ε → Bool) (rr : Bool) (f : Nat → Except ε α) (e : ε)
    (hf : ∀ n, f n = .error e) (hp : p e = true) (hstop : 1 ≤ stopAfter) :
    tenacityRun stopAfter p rr f =
      ((if rr then .raised e else .retryError e), stopAfter) :=
  tenacityGo_const_error stopAfter p rr f e hf hp stopAfter 1 hstop (by omega)

theorem tenacityRun_no_retry {ε α : Type} (stopAfter : Nat)
    (p : ε → Bool) (rr : Bool) (f : Nat → Except ε α) (e : ε)
    (hf : f 1 = .error e) (hp : p e = false) :
    tenacityRun stopAfter p rr f = (.raised e, 1) := by
  unfold tenacityRun
  rw [tenacityGo, hf]
  simp [hp]

theorem wait_exponential_mono (m mn mx : ℚ) (hm : 0 ≤ m) (n : Nat) :
    wait_exponential m mn mx n ≤ wait_exponential m mn mx (n + 1) := by
  unfold wait_exponential
  refine max_le_max le_rfl (min_le_min ?_ le_rfl)
  refine mul_le_mul_of_nonneg_left ?_ hm
  exact pow_le_pow_right₀ (by norm_num) (by omega)

theorem wait_exponential_bounds (m mn mx : ℚ) (hmn : 0 ≤ mn) (hmx : mn ≤ mx)
    (n : Nat) :
    mn ≤ wait_exponential m mn mx n ∧ wait_exponential m mn mx n ≤ mx := by
  unfold wait_exponential
  rw [max_eq_right hmn]
  exact ⟨le_max_left _ _, max_le hmx (min_le_right _ _)⟩

theorem wait_exponential_doubles (m mn mx : ℚ) (hmn : 0 ≤ mn) (n : Nat)
    (hn : 1 ≤ n) (hlo : mn ≤ m * 2 ^ (n - 1)) (hhi : m * 2 ^ n ≤ mx) :
    wait_exponential m mn mx (n + 1) = 2 * wait_exponential m mn mx n := by
  have hpow : (2 : ℚ) ^ n = 2 * 2 ^ (n - 1) := by
    conv_lhs => rw [show n = (n - 1) + 1 by omega]
    rw [pow_succ]
    ring
  have hX : 0 ≤ m * 2 ^ (n - 1) := le_trans hmn hlo
  have h2 : m * 2 ^ n = 2 * (m * 2 ^ (n - 1)) := by rw [hpow]; ring
  have hlo' : mn ≤ m * 2 ^ n := by rw [h2]; linarith
  have hhi' : m * 2 ^ (n - 1) ≤ mx := by
    have hhi2 := hhi
    rw [h2] at hhi2
    linarith
  unfold wait_exponential
  rw [max_eq_right hmn, Nat.add_sub_cancel]
  rw [min_eq_left hhi, min_eq_left hhi']
  rw [max_eq_right hlo', max_eq_right hlo, hpow]
  ring

/-- C2 (amended): the analyzer's and summary script's retry wrappers
attempt the callable exactly 4 times on persistently transient errors
and re-raise the final exception unchanged, and do not retry (one
attempt, exception re-raised) on a non-transient exception; the theory
updater's wrapper retries on any exception and, when all 3 attempts
fail, raises a `RetryError` wrapping the final exception instead of
re-raising it unchanged; the waits between attempts follow the
configured clamped exponential (monotone, within the configured bounds,
and doubling while unclamped). -/
theorem retry_wrapper_semantics :
    (∀ (α : Type) (f : Nat → Except PyExn α) (e : PyExn),
      (∀ n, f n = .error e) → isTransientExn e = true →
        retryable f = (.raised e, 4)) ∧
    (∀ (α : Type) (f : Nat → Except PyExn α) (e : PyExn),
      f 1 = .error e → isTransientExn e = false →
        retryable f = (.raised e, 1)) ∧
    (∀ (α : Type) (f : Nat → Except PyExn α) (e : PyExn),
      (∀ n, f n = .error e) → isTransientExn e = true →
        summary_retryable f = (.raised e, 4)) ∧
    (∀ (α : Type) (f : Nat → Except PyExn α) (e : PyExn),
      f 1 = .error e → isTransientExn e = false →
        summary_retryable f = (.raised e, 1)) ∧
    (∀ (α : Type) (f : Nat → Except PyExn α) (e : PyExn),
      (∀ n, f n = .error e) →
        update_theory_retry f = (.retryError e, 3)) ∧
    (∀ n, analyzer_wait n ≤ analyzer_wait (n + 1)) ∧
    (∀ n, 2 ≤ analyzer_wait n ∧ analyzer_wait n ≤ 60) ∧
    (∀ n, 1 ≤ n → 2 ≤ (9 / 5 : ℚ) * 2 ^ (n - 1) → (9 / 5 : ℚ) * 2 ^ n ≤ 60 →
      analyzer_wait (n + 1) = 2 * analyzer_wait n) ∧
    (∀ n, updater_wait n ≤ updater_wait (n + 1)) ∧
    (∀ n, 10 ≤ updater_wait n ∧ updater_wait n ≤ 120) ∧
    (∀ n, 1 ≤ n → 10 ≤ (2 : ℚ) * 2 ^ (n - 1) → (2 : ℚ) * 2 ^ n ≤ 120 →
      updater_wait (n + 1) = 2 * updater_wait n) := by
  refine ⟨?_, ?_, ?_, ?_, ?_, ?_, ?_, ?_, ?_, ?_, ?_⟩
  · intro α f e hf hp
    simpa using tenacityRun_const_error 4 isTransientExn true f e hf hp (by norm_num)
  · intro α f e hf hp
    exact tenacityRun_no_retry 4 isTransientExn true f e hf hp
  · intro α f e hf hp
    simpa using tenacityRun_const_error 4 isTransientExn true f e hf hp (by norm_num)
  · intro α f e hf hp
    exact tenacityRun_no_retry 4 isTransientExn true f e hf hp
  · intro α f e hf
    simpa using tenacityRun_const_error 3 (fun _ => true) false f e hf rfl (by norm_num)
  · exact fun n => wait_exponential_mono _ _ _ (by norm_num) n
  · exact fun n => wait_exponential_bounds _ _ _ (by norm_num) (by norm_num) n
  · exact fun n hn hlo hhi =>
      wait_exponential_doubles _ _ _ (by norm_num) n hn hlo hhi
  · exact fun n => wait_exponential_mono _ _ _ (by norm_num) n
  · exact fun n => wait_exponential_bounds _ _ _ (by norm_num) (by norm_num) n
  · exact fun n hn hlo hhi =>
      wait_exponential_doubles _ _ _ (by norm_num) n hn hlo hhi

/-- Closed counterexample to C2 as stated: the theory updater's wrapper,
fed a persistently raised non-transient `ValueError`, attempts 3 times
instead of not retrying, and ends in a `RetryError` wrapping the
exception rather than re-raising it unchanged. -/
theorem retry_wrapper_claim_counterexample :
    update_theory_retry
        (fun _ => (Except.error (PyExn.other "ValueError") : Except PyExn Nat)) =
      (.retryError (PyExn.other "ValueError"), 3) ∧
    isTransientExn (PyExn.other "ValueError") = false ∧
    (RetryOutcome.retryError (α := Nat) (PyExn.other "ValueError") ≠
      .raised (PyExn.other "ValueError")) ∧
    (3 : Nat) ≠ 1 := by
  refine ⟨by decide, by decide, by decide, by decide⟩

/-- Closed instance of `retry_wrapper_semantics`: the analyzer wrapper
on a persistent timeout and on an immediate non-transient error. -/
theorem retry_wrapper_semantics_witness :
    retryable (fun _ => (Except.error PyExn.readTimeout : Except PyExn Nat)) =
      (.raised PyExn.readTimeout, 4) ∧
    retryable (fun _ => (Except.error PyExn.jsonDecodeError : Except PyExn Nat)) =
      (.raised PyExn.jsonDecodeError, 1) :=
  ⟨retry_wrapper_semantics.1 Nat _ PyExn.readTimeout (fun _ => rfl) rfl,
   retry_wrapper_semantics.2.1 Nat _ PyExn.jsonDecodeError rfl rfl⟩

/-- C6: for every analysis run whose LLM response fails JSON parsing,
`analyze_with_store` catches the `JSONDecodeError` and returns a stub
object with an `error` field and a `raw_response` field holding the
first 1000 characters of the raw text; no exception escapes, so the
surrounding `retryable` wrapper returns the stub normally after a
single attempt and the batch continues. -/
theorem analyze_with_store_parse_failure (text : String) :
    analyze_with_store text none =
      .obj [("error", .str "Failed to parse response"),
            ("raw_response", .str (pySlice text 1000))] ∧
    (pySlice text 1000).length ≤ 1000 ∧
    retryable (fun _ => (Except.ok (analyze_with_store text none) : Except PyExn Json)) =
      (.ok (analyze_with_store text none), 1) := by
  refine ⟨rfl, ?_, rfl⟩
  show (text.toList.take 1000).length ≤ 1000
  exact List.length_take_le 1000 _

/-- Closed counterexample to C4 as stated: none of the four claimed API
endpoints is registered in the viewer's route table. -/
theorem viewer_api_routes_counterexample :
    "/api/papers" ∉ viewer_routes ∧ "/api/phenomena" ∉ viewer_routes ∧
    "/api/stats" ∉ viewer_routes ∧ "/api/claims" ∉ viewer_routes := by
  refine ⟨by decide, by decide, by decide, by decide⟩

/-- C4 (amended): the viewer's HTTP surface consists of `GET /` alone,
which renders the dashboard from the loaded papers, their computed
statistics and the cumulative theory; no `/api/...` JSON mirror
endpoints exist. -/
theorem viewer_http_surface :
    viewer_routes = ["/"] ∧
    (∀ (dirExists : Bool) (files : List DirEntry) (theory : Option Json)
        (page : IndexPage),
      index dirExists files theory = some page →
        load_analysis_results dirExists files = some (page.papers, page.error) ∧
        calculate_statistics page.papers = some page.stats ∧
        page.theory = theory) := by
  refine ⟨rfl, ?_⟩
  intro d files th page h
  unfold index at h
  cases hl : load_analysis_results d files with
  | none => rw [hl] at h; exact absurd h (by simp)
  | some pr =>
    obtain ⟨papers, err⟩ := pr
    rw [hl] at h
    dsimp only at h
    cases hs : calculate_statistics papers with
    | none => rw [hs] at h; exact absurd h (by simp)
    | some stats =>
      rw [hs] at h
      dsimp only at h
      have hpage := Option.some.inj h
      subst hpage
      exact ⟨rfl, hs, rfl⟩

/-- Closed instance of `viewer_http_surface` on an empty output
directory. -/
theorem viewer_http_surface_witness :
    load_analysis_results true [] =
      some ((⟨[], none, none,
        [("total_claims", StatVal.num 0), ("unique_claims", StatVal.num 0),
         ("total_insights", StatVal.num 0),
         ("claim_counts", StatVal.dict [])]⟩ : IndexPage).papers,
        (⟨[], none, none,
          [("total_claims", StatVal.num 0), ("unique_claims", StatVal.num 0),
           ("total_insights", StatVal.num 0),
           ("claim_counts", StatVal.dict [])]⟩ : IndexPage).error) ∧
    calculate_statistics
        (⟨[], none, none,
          [("total_claims", StatVal.num 0), ("unique_claims", StatVal.num 0),
           ("total_insights", StatVal.num 0),
           ("claim_counts", StatVal.dict [])]⟩ : IndexPage).papers =
      some (⟨[], none, none,
        [("total_claims", StatVal.num 0), ("unique_claims", StatVal.num 0),
         ("total_insights", StatVal.num 0),
         ("claim_counts", StatVal.dict [])]⟩ : IndexPage).stats ∧
    (⟨[], none, none,
      [("total_claims", StatVal.num 0), ("unique_claims", StatVal.num 0),
       ("total_insights", StatVal.num 0),
       ("claim_counts", StatVal.dict [])]⟩ : IndexPage).theory = none :=
  viewer_http_surface.2 true [] none
    ⟨[], none, none,
     [("total_claims", StatVal.num 0), ("unique_claims", StatVal.num 0),
      ("total_insights", StatVal.num 0), ("claim_counts", StatVal.dict [])]⟩
    rfl

theorem load_analysis_results_true (files : List DirEntry) :
    load_analysis_results true files =
      (if ((files.filter (fun e => strEndsWith e.name ".json")).filterMap
          (fun e => e.parse)).all (fun p => (sortKey p).isSome) then
        some ((((files.filter (fun e => strEndsWith e.name ".json")).filterMap
          (fun e => e.parse)).insertionSort tsDescOk : List Json),
          (none : Option String))
      else none) := rfl

theorem load_results_eq (files : List DirEntry) (papers : List Json)
    (err : Option String)
    (h : load_analysis_results true files = some (papers, err)) :
    err = none ∧
    papers = ((files.filter (fun e => strEndsWith e.name ".json")).filterMap
      (fun e => e.parse)).insertionSort tsDescOk := by
  rw [load_analysis_results_true] at h
  cases hall : ((files.filter (fun e => strEndsWith e.name ".json")).filterMap
      (fun e => e.parse)).all (fun p => (sortKey p).isSome) with
  | false => rw [hall] at h; exact absurd h (by simp)
  | true =>
    rw [hall] at h
    rw [if_pos rfl] at h
    have := Option.some.inj h
    exact ⟨(Prod.mk.injEq _ _ _ _ |>.mp this).2.symm,
           (Prod.mk.injEq _ _ _ _ |>.mp this).1.symm⟩

theorem load_results_perm (files : List DirEntry) (papers : List Json)
    (err : Option String)
    (h : load_analysis_results true files = some (papers, err)) :
    err = none ∧
    papers.Perm ((files.filter (fun e => strEndsWith e.name ".json")).filterMap
      (fun e => e.parse)) := by
  obtain ⟨he, hp⟩ := load_results_eq files papers err h
  refine ⟨he, ?_⟩
  rw [hp]
  exact List.perm_insertionSort tsDescOk _

/-- Closed counterexample to C7 as stated: a directory holding only the
`processed_papers.json` dedupe ledger; its record appears in the loaded
papers list, because `load_analysis_results` globs every `*.json` file
with no skip list for non-paper files. -/
theorem viewer_no_skip_counterexample :
    load_analysis_results true
        [⟨"processed_papers.json",
          some (.obj [("a.pdf",
            .obj [("file_hash", .str "h"), ("processed_at", .str "t"),
                  ("output_file", .str "A.json"), ("paper_title", .str "T")])])⟩] =
      some ([.obj [("a.pdf",
            .obj [("file_hash", .str "h"), ("processed_at", .str "t"),
                  ("output_file", .str "A.json"), ("paper_title", .str "T")])]],
        none) := by
  rfl

/-- C7 (amended): the viewer reads every `*.json` file of the output
directory with no skip list, so the loaded papers are exactly the
parseable `*.json` files' records (up to sorting) — including records
of non-paper files such as the `processed_papers.json` ledger, each of
which does appear in the rendered papers list. -/
theorem viewer_reads_every_json_file (files : List DirEntry)
    (papers : List Json) (err : Option String)
    (h : load_analysis_results true files = some (papers, err)) :
    err = none ∧
    papers.Perm ((files.filter (fun e => strEndsWith e.name ".json")).filterMap
      (fun e => e.parse)) ∧
    (∀ e ∈ files, strEndsWith e.name ".json" = true →
      ∀ j, e.parse = some j → j ∈ papers) := by
  obtain ⟨he, hperm⟩ := load_results_perm files papers err h
  refine ⟨he, hperm, ?_⟩
  intro e hef hjson j hj
  refine hperm.mem_iff.mpr ?_
  refine List.mem_filterMap.mpr ⟨e, ?_, hj⟩
  exact List.mem_filter.mpr ⟨hef, hjson⟩

/-- Closed instance of `viewer_reads_every_json_file` on the ledger
fixture. -/
theorem viewer_reads_every_json_file_witness :
    (none : Option String) = none ∧
    List.Perm
      [Json.obj [("a.pdf",
        .obj [("file_hash", .str "h"), ("processed_at", .str "t"),
              ("output_file", .str "A.json"), ("paper_title", .str "T")])]]
      (([(⟨"processed_papers.json",
          some (.obj [("a.pdf",
            .obj [("file_hash", .str "h"), ("processed_at", .str "t"),
                  ("output_file", .str "A.json"), ("paper_title", .str "T")])])⟩ :
          DirEntry)].filter (fun e => strEndsWith e.name ".json")).filterMap
        (fun e => e.parse)) ∧
    (∀ e ∈ [(⟨"processed_papers.json",
          some (.obj [("a.pdf",
            .obj [("file_hash", .str "h"), ("processed_at", .str "t"),
                  ("output_file", .str "A.json"), ("paper_title", .str "T")])])⟩ :
          DirEntry)], strEndsWith e.name ".json" = true →
      ∀ j, e.parse = some j →
        j ∈ [Json.obj [("a.pdf",
          .obj [("file_hash", .str "h"), ("processed_at", .str "t"),
                ("output_file", .str "A.json"), ("paper_title", .str "T")])]]) :=
  viewer_reads_every_json_file
    [⟨"processed_papers.json",
      some (.obj [("a.pdf",
        .obj [("file_hash", .str "h"), ("processed_at", .str "t"),
              ("output_file", .str "A.json"), ("paper_title", .str "T")])])⟩]
    [.obj [("a.pdf",
      .obj [("file_hash", .str "h"), ("processed_at", .str "t"),
            ("output_file", .str "A.json"), ("paper_title", .str "T")])]]
    none (by rfl)

/-- C8: for every directory listing with at least one malformed `.json`
file, the load succeeds without aborting (no error message), the
malformed files are skipped, and the returned papers are exactly the
records of the remaining well-formed `.json` files (up to sorting).
The second hypothesis confines the statement to records whose sort keys
are well-typed strings, the only case the embedding models (see
`sortKey`). -/
theorem viewer_load_skips_malformed (files : List DirEntry)
    (_hmal : ∃ e ∈ files, strEndsWith e.name ".json" = true ∧ e.parse = none)
    (hkeys : ((files.filter (fun e => strEndsWith e.name ".json")).filterMap
      (fun e => e.parse)).all (fun p => (sortKey p).isSome) = true) :
    ∃ papers, load_analysis_results true files = some (papers, none) ∧
      papers.Perm ((files.filter (fun e => strEndsWith e.name ".json")).filterMap
        (fun e => e.parse)) := by
  refine ⟨((files.filter (fun e => strEndsWith e.name ".json")).filterMap
    (fun e => e.parse)).insertionSort tsDescOk, ?_, ?_⟩
  · rw [load_analysis_results_true, hkeys]
    rfl
  · exact List.perm_insertionSort tsDescOk _

/-- Closed instance of `viewer_load_skips_malformed`: one malformed and
one well-formed file. -/
theorem viewer_load_skips_malformed_witness :
    ∃ papers, load_analysis_results true
        [⟨"bad.json", none⟩, ⟨"good.json", some (.obj [("k", .str "v")])⟩] =
      some (papers, none) ∧
      papers.Perm (([(⟨"bad.json", none⟩ : DirEntry),
        ⟨"good.json", some (.obj [("k", .str "v")])⟩].filter
          (fun e => strEndsWith e.name ".json")).filterMap (fun e => e.parse)) :=
  viewer_load_skips_malformed
    [⟨"bad.json", none⟩, ⟨"good.json", some (.obj [("k", .str "v")])⟩]
    ⟨⟨"bad.json", none⟩, List.mem_cons_self _ _, rfl, rfl⟩
    (by rfl)

/-- Does a loaded record carry `_metadata.analysis_timestamp` at all
(whatever its value)?  Used to state the sorting claim. -/
def hasTimestamp (p : Json) : Bool :=
  match p with
  | .obj fields =>
    match lookupField fields "_metadata" with
    | some (.obj mfields) => (lookupField mfields "analysis_timestamp").isSome
    | _ => false
  | _ => false

theorem eq_empty_of_pyStrLt_empty (s : String) (h : pyStrLt "" s = false) :
    s = "" := by
  cases s with
  | mk data =>
    cases data with
    | nil => rfl
    | cons c cs =>
      have hx : pyStrLt "" (String.mk (c :: cs)) = true := rfl
      rw [hx] at h
      exact Bool.noConfusion h

theorem tsDescOk_empty_propagates (a b : Json) (hab : tsDescOk a b)
    (ha : sortKeyD a = "") : sortKeyD b = "" := by
  unfold tsDescOk at hab
  rw [ha] at hab
  unfold pyStrLe at hab
  rw [Bool.not_eq_true'] at hab
  exact eq_empty_of_pyStrLt_empty _ hab

theorem sortKeyD_empty_of_no_timestamp (p : Json) (h : hasTimestamp p = false) :
    sortKeyD p = "" := by
  cases p with
  | obj fields =>
    simp only [hasTimestamp] at h
    simp only [sortKeyD, sortKey]
    cases hm : lookupField fields "_metadata" with
    | none => rfl
    | some v =>
      rw [hm] at h
      cases v with
      | obj mfields =>
        dsimp only at h ⊢
        cases hts : lookupField mfields "analysis_timestamp" with
        | none => rfl
        | some t =>
          rw [hts] at h
          exact absurd h (by simp)
      | null => rfl
      | bool b => rfl
      | num n => rfl
      | str s => rfl
      | arr items => rfl
  | null => rfl
  | bool b => rfl
  | num n => rfl
  | str s => rfl
  | arr items => rfl

/-- Closed counterexample to C9 as stated: a record with no timestamp is
placed BEFORE a record that has one (the empty-string timestamp), since
both get the `''` sort key and Python's stable sort keeps their
original order. -/
theorem viewer_sort_counterexample :
    load_analysis_results true
        [⟨"a.json", some (.obj [("k", .str "v")])⟩,
         ⟨"b.json", some (.obj [("_metadata",
            .obj [("analysis_timestamp", .str "")])])⟩] =
      some ([.obj [("k", .str "v")],
             .obj [("_metadata", .obj [("analysis_timestamp", .str "")])]],
        none) ∧
    hasTimestamp (.obj [("k", .str "v")]) = false ∧
    hasTimestamp (.obj [("_metadata",
      .obj [("analysis_timestamp", .str "")])]) = true := by
  refine ⟨rfl, rfl, rfl⟩

/-- C9 (amended): the viewer sorts the loaded records descending by the
timestamp sort key, and every record lacking a timestamp (whose key
defaults to `''`) is placed after all records whose key is a nonempty
string; records whose stored timestamp is the empty string share the
`''` key and are indistinguishable from timestamp-less ones. -/
theorem viewer_sorts_descending (files : List DirEntry) (papers : List Json)
    (err : Option String)
    (h : load_analysis_results true files = some (papers, err)) :
    List.Pairwise tsDescOk papers ∧
    List.Pairwise (fun a b => sortKeyD a = "" → sortKeyD b = "") papers ∧
    (∀ p, hasTimestamp p = false → sortKeyD p = "") := by
  obtain ⟨he, hp⟩ := load_results_eq files papers err h
  subst hp
  refine ⟨?_, ?_, fun p hp => sortKeyD_empty_of_no_timestamp p hp⟩
  · exact List.sorted_insertionSort tsDescOk _
  · exact List.Pairwise.imp
      (fun hab ha => tsDescOk_empty_propagates _ _ hab ha)
      (List.sorted_insertionSort tsDescOk _)

/-- Closed instance of `viewer_sorts_descending` on a two-record
fixture. -/
theorem viewer_sorts_descending_witness :
    List.Pairwise tsDescOk
      [Json.obj [("k", .str "v")],
       .obj [("_metadata", .obj [("analysis_timestamp", .str "")])]] ∧
    List.Pairwise (fun a b => sortKeyD a = "" → sortKeyD b = "")
      [Json.obj [("k", .str "v")],
       .obj [("_metadata", .obj [("analysis_timestamp", .str "")])]] ∧
    (∀ p, hasTimestamp p = false → sortKeyD p = "") :=
  viewer_sorts_descending
    [⟨"a.json", some (.obj [("k", .str "v")])⟩,
     ⟨"b.json", some (.obj [("_metadata",
        .obj [("analysis_timestamp", .str "")])])⟩]
    [.obj [("k", .str "v")],
     .obj [("_metadata", .obj [("analysis_timestamp", .str "")])]]
    none (by rfl)

/-- The supported-claims list the statistics loop extracts from one
paper (spec-side helper for stating the aggregate). -/
def claimsOf (paper : Json) : List Json :=
  match paper with
  | .obj fields =>
    extract_claims_list ((lookupField fields "supported_claims").getD (.arr []))
  | _ => []

theorem calculate_statistics_step_total (st : StatsState) (p : Json)
    (st' : StatsState) (h : calculate_statistics_step st p = some st') :
    st'.total_claims = st.total_claims + (claimsOf p).length := by
  cases p with
  | obj fields =>
    simp only [calculate_statistics_step, pyGetD] at h
    by_cases hall : ((extract_claims_list
        ((lookupField fields "supported_claims").getD (.arr []))).all isHashable) = true
    · rw [if_pos hall] at h
      cases hlen : pyLen
          ((lookupField fields "additional_or_contradictory_insights").getD (.arr [])) with
      | none => rw [hlen] at h; exact absurd h (by simp)
      | some k =>
        rw [hlen] at h
        dsimp only at h
        have := Option.some.inj h
        rw [← this]
        simp [claimsOf]
    · rw [if_neg hall] at h
      exact absurd h (by simp)
  | null => exact absurd h (by simp [calculate_statistics_step, pyGetD])
  | bool b => exact absurd h (by simp [calculate_statistics_step, pyGetD])
  | num n => exact absurd h (by simp [calculate_statistics_step, pyGetD])
  | str s => exact absurd h (by simp [calculate_statistics_step, pyGetD])
  | arr items => exact absurd h (by simp [calculate_statistics_step, pyGetD])

theorem calc_stats_foldlM_total (papers : List Json) :
    ∀ (st st' : StatsState),
      List.foldlM calculate_statistics_step st papers = some st' →
      st'.total_claims =
        st.total_claims + (papers.map (fun p => (claimsOf p).length)).sum := by
  induction papers with
  | nil =>
    intro st st' h
    have : st = st' := by simpa [List.foldlM] using h
    subst this
    simp
  | cons p ps ih =>
    intro st st' h
    rw [List.foldlM_cons] at h
    cases hstep : calculate_statistics_step st p with
    | none => rw [hstep] at h; exact absurd h (by simp)
    | some st1 =>
      rw [hstep] at h
      have h2 : List.foldlM calculate_statistics_step st1 ps = some st' := by
        simpa using h
      have hsum := ih st1 st' h2
      rw [hsum, calculate_statistics_step_total st p st1 hstep]
      simp [Nat.add_assoc]

/-- Closed counterexample to C3 as stated: on the spec's own fixture
(one file whose evidence array has 2 items, one with an empty evidence
array), the statistics dict computed by the viewer has no
`total_evidence` key and no `phenomenon_counts` key at all. -/
theorem viewer_stats_counterexample :
    (calculate_statistics
        [.obj [("paper_metadata", .obj [("title", .str "A")]),
               ("evidence", .arr [
                 .obj [("phenomenon_id", .str "causal_control"),
                       ("system_type", .str "ai")],
                 .obj [("phenomenon_id", .str "selective_routing"),
                       ("system_type", .str "bio")]]),
               ("supported_claims", .arr [.num 3, .num 14]),
               ("additional_or_contradictory_insights", .arr [])],
         .obj [("evidence", .arr []), ("supported_claims", .arr [])]]).map
      (fun stats => (List.lookup "total_evidence" stats,
                     List.lookup "phenomenon_counts" stats)) =
      some (none, none) := by
  rfl

/-- C3 (amended): the aggregates the viewer computes are `total_claims`,
`unique_claims`, `total_insights` and `claim_counts` (not
`total_evidence`/`phenomenon_counts`); whenever the computation
succeeds, `total_claims` equals the sum over all loaded files of the
lengths of their extracted supported-claims lists, and `claim_counts`
is a tally dict; on the fixture with one 2-claim file and one empty
file the stats are exactly `total_claims = 2`, `unique_claims = 2`,
`total_insights = 0`, `claim_counts = {3: 1, 14: 1}`. -/
theorem viewer_statistics_totals (papers : List Json)
    (stats : List (String × StatVal))
    (h : calculate_statistics papers = some stats) :
    List.lookup "total_claims" stats =
      some (.num ((papers.map (fun p => (claimsOf p).length)).sum)) ∧
    (∃ counts, List.lookup "claim_counts" stats = some (.dict counts)) ∧
    calculate_statistics
        [.obj [("paper_metadata", .obj [("title", .str "A")]),
               ("evidence", .arr [
                 .obj [("phenomenon_id", .str "causal_control"),
                       ("system_type", .str "ai")],
                 .obj [("phenomenon_id", .str "selective_routing"),
                       ("system_type", .str "bio")]]),
               ("supported_claims", .arr [.num 3, .num 14]),
               ("additional_or_contradictory_insights", .arr [])],
         .obj [("evidence", .arr []), ("supported_claims", .arr [])]] =
      some [("total_claims", .num 2), ("unique_claims", .num 2),
            ("total_insights", .num 0),
            ("claim_counts", .dict [("3", 1), ("14", 1)])] := by
  unfold calculate_statistics at h
  cases hf : List.foldlM calculate_statistics_step
      (⟨0, [], 0, []⟩ : StatsState) papers with
  | none => rw [hf] at h; exact absurd h (by simp)
  | some st =>
    rw [hf] at h
    rw [Option.map_some'] at h
    have hstats := Option.some.inj h
    have htot := calc_stats_foldlM_total papers ⟨0, [], 0, []⟩ st hf
    refine ⟨?_, ?_, by rfl⟩
    · rw [← hstats]
      simp only [List.lookup]
      rw [htot]
      simp
    · exact ⟨st.claim_counts, by rw [← hstats]; rfl⟩

/-- Closed instance of `viewer_statistics_totals` on the fixture
itself. -/
theorem viewer_statistics_totals_witness :
    List.lookup "total_claims"
        [("total_claims", StatVal.num 2), ("unique_claims", StatVal.num 2),
         ("total_insights", StatVal.num 0),
         ("claim_counts", StatVal.dict [("3", 1), ("14", 1)])] =
      some (.num (([Json.obj [("paper_metadata", .obj [("title", .str "A")]),
               ("evidence", .arr [
                 .obj [("phenomenon_id", .str "causal_control"),
                       ("system_type", .str "ai")],
                 .obj [("phenomenon_id", .str "selective_routing"),
                       ("system_type", .str "bio")]]),
               ("supported_claims", .arr [.num 3, .num 14]),
               ("additional_or_contradictory_insights", .arr [])],
         Json.obj [("evidence", .arr []), ("supported_claims", .arr [])]].map
           (fun p => (claimsOf p).length)).sum)) ∧
    (∃ counts, List.lookup "claim_counts"
        [("total_claims", StatVal.num 2), ("unique_claims", StatVal.num 2),
         ("total_insights", StatVal.num 0),
         ("claim_counts", StatVal.dict [("3", 1), ("14", 1)])] =
      some (.dict counts)) ∧
    calculate_statistics
        [.obj [("paper_metadata", .obj [("title", .str "A")]),
               ("evidence", .arr [
                 .obj [("phenomenon_id", .str "causal_control"),
                       ("system_type", .str "ai")],
                 .obj [("phenomenon_id", .str "selective_routing"),
                       ("system_type", .str "bio")]]),
               ("supported_claims", .arr [.num 3, .num 14]),
               ("additional_or_contradictory_insights", .arr [])],
         .obj [("evidence", .arr []), ("supported_claims", .arr [])]] =
      some [("total_claims", .num 2), ("unique_claims", .num 2),
            ("total_insights", .num 0),
            ("claim_counts", .dict [("3", 1), ("14", 1)])] :=
  viewer_statistics_totals
    [.obj [("paper_metadata", .obj [("title", .str "A")]),
           ("evidence", .arr [
             .obj [("phenomenon_id", .str "causal_control"),
                   ("system_type", .str "ai")],
             .obj [("phenomenon_id", .str "selective_routing"),
                   ("system_type", .str "bio")]]),
           ("supported_claims", .arr [.num 3, .num 14]),
           ("additional_or_contradictory_insights", .arr [])],
     .obj [("evidence", .arr []), ("supported_claims", .arr [])]]
    [("total_claims", .num 2), ("unique_claims", .num 2),
     ("total_insights", .num 0),
     ("claim_counts", .dict [("3", 1), ("14", 1)])]
    (by rfl)

theorem lookupField_dictSet_self (l : List (String × Json)) (k : String)
    (v : Json) : lookupField (dictSetJson l k v) k = some v := by
  induction l with
  | nil => simp [dictSetJson, lookupField]
  | cons kv rest ih =>
    obtain ⟨k2, w⟩ := kv
    by_cases h : k2 = k
    · simp [dictSetJson, lookupField, h]
    · simp [dictSetJson, lookupField, h, ih]

theorem lookupField_dictSet_ne (l : List (String × Json)) (k k' : String)
    (v : Json) (hne : k ≠ k') :
    lookupField (dictSetJson l k v) k' = lookupField l k' := by
  induction l with
  | nil => simp [dictSetJson, lookupField, hne]
  | cons kv rest ih =>
    obtain ⟨k2, w⟩ := kv
    by_cases h : k2 = k
    · subst h
      simp [dictSetJson, lookupField, hne]
    · simp [dictSetJson, lookupField, h, ih]

theorem tenacityGo_ok {ε α : Type} (stopAfter : Nat) (p : ε → Bool)
    (rr : Bool) (f : Nat → Except ε α) (a : α) :
    ∀ (fuel attempt : Nat),
      (tenacityGo stopAfter p rr f attempt fuel).1 = .ok a →
      ∃ n, f n = .ok a := by
  intro fuel
  induction fuel with
  | zero =>
    intro attempt h
    rw [tenacityGo] at h
    cases hf : f attempt with
    | ok b =>
      rw [hf] at h
      exact ⟨attempt, by rw [hf]; exact congrArg Except.ok (by simpa using h)⟩
    | error e =>
      rw [hf] at h
      cases hp : p e with
      | true =>
        simp only [hp, if_true] at h
        by_cases hs : stopAfter ≤ attempt
        · rw [if_pos hs] at h
          cases rr <;> simp at h
        · rw [if_neg hs] at h
          simp at h
      | false =>
        simp only [hp, Bool.false_eq_true, if_false] at h
        simp at h
  | succ fuel ih =>
    intro attempt h
    rw [tenacityGo] at h
    cases hf : f attempt with
    | ok b =>
      rw [hf] at h
      exact ⟨attempt, by rw [hf]; exact congrArg Except.ok (by simpa using h)⟩
    | error e =>
      rw [hf] at h
      cases hp : p e with
      | true =>
        simp only [hp, if_true] at h
        by_cases hs : stopAfter ≤ attempt
        · rw [if_pos hs] at h
          cases rr <;> simp at h
        · rw [if_neg hs] at h
          exact ih (attempt + 1) h
      | false =>
        simp only [hp, Bool.false_eq_true, if_false] at h
        simp at h

theorem update_theory_with_gpt5_ok (ct : Option Json) (an : List Json)
    (na : Json) (model now : String) (call : LlmOutcome) (result : Json)
    (h : update_theory_with_gpt5 ct an na model now call = .ok result) :
    ∃ fields0 title inc fn,
      call = .ok (.obj fields0) ∧
      pyGetD2 na "paper_metadata" "title" (.str "Unknown") = some title ∧
      incorporatedOf ct = some inc ∧
      pyGetD na "_filename" (.str "") = some fn ∧
      result = .obj (dictSetJson (dictSetJson fields0 "_metadata"
        (.obj [("update_timestamp", .str now), ("model_used", .str model),
               ("papers_incorporated", .num an.length),
               ("latest_paper", title)]))
        "incorporated_analyses" (.arr (inc ++ [fn]))) := by
  cases call with
  | apiError e => exact absurd h (by simp [update_theory_with_gpt5])
  | parseError => exact absurd h (by simp [update_theory_with_gpt5])
  | ok r =>
    cases r with
    | obj fields0 =>
      simp only [update_theory_with_gpt5] at h
      cases ht : pyGetD2 na "paper_metadata" "title" (.str "Unknown") with
      | none => rw [ht] at h; exact absurd h (by simp)
      | some title =>
        rw [ht] at h
        dsimp only at h
        cases hi : incorporatedOf ct with
        | none => rw [hi] at h; exact absurd h (by simp)
        | some inc =>
          rw [hi] at h
          dsimp only at h
          cases hfn : pyGetD na "_filename" (.str "") with
          | none => rw [hfn] at h; exact absurd h (by simp)
          | some fn =>
            rw [hfn] at h
            dsimp only at h
            exact ⟨fields0, title, inc, fn, rfl, rfl, rfl, rfl,
              (Except.ok.inj h).symm⟩
    | null => exact absurd h (by simp [update_theory_with_gpt5])
    | bool b => exact absurd h (by simp [update_theory_with_gpt5])
    | num n => exact absurd h (by simp [update_theory_with_gpt5])
    | str s => exact absurd h (by simp [update_theory_with_gpt5])
    | arr items => exact absurd h (by simp [update_theory_with_gpt5])

/-- C5: after a successful LLM call the parsed theory gets the
bookkeeping `_metadata` (update timestamp, model used, count of
incorporated papers, latest paper) and the extended
`incorporated_analyses` file list (first conjunct); the run then
persists both `current_theory.json` and a timestamped backup copy
(second conjunct); and whenever every attempt's LLM call or JSON parse
fails, the run ends as a failure with the theory store unchanged —
neither the current file nor a backup is written (third conjunct). -/
theorem theory_update_persistence :
    (∀ (ct : Option Json) (an : List Json) (na : Json) (model now : String)
        (calls : Nat → LlmOutcome) (result : Json),
      (update_theory_with_gpt5_retried ct an na model now calls).1 = .ok result →
      ∃ fields title inc fn,
        result = .obj fields ∧
        pyGetD2 na "paper_metadata" "title" (.str "Unknown") = some title ∧
        incorporatedOf ct = some inc ∧
        pyGetD na "_filename" (.str "") = some fn ∧
        lookupField fields "_metadata" = some (.obj
          [("update_timestamp", .str now), ("model_used", .str model),
           ("papers_incorporated", .num an.length),
           ("latest_paper", title)]) ∧
        lookupField fields "incorporated_analyses" =
          some (.arr (inc ++ [fn]))) ∧
    (∀ (store : TheoryStore) (files : List DirEntry) (sel : Option String)
        (model now ts : String) (calls : Nat → LlmOutcome) (na updated : Json),
      (load_all_analyses files).isEmpty = false →
      choose_analysis (load_all_analyses files) store.current sel =
        some (some na) →
      (update_theory_with_gpt5_retried store.current (load_all_analyses files)
        na model now calls).1 = .ok updated →
      update_cumulative_theory store files sel model now ts calls =
        (⟨some updated,
          ("theory_backup_" ++ ts ++ ".json", updated) :: store.backups⟩,
         .finished (some updated))) ∧
    (∀ (store : TheoryStore) (files : List DirEntry) (sel : Option String)
        (model now ts : String) (calls : Nat → LlmOutcome) (na : Json),
      (∀ n r, calls n ≠ .ok r) →
      choose_analysis (load_all_analyses files) store.current sel =
        some (some na) →
      update_cumulative_theory store files sel model now ts calls =
        (store, .finished none)) := by
  refine ⟨?_, ?_, ?_⟩
  · intro ct an na model now calls result h
    unfold update_theory_with_gpt5_retried update_theory_retry tenacityRun at h
    obtain ⟨n, hn⟩ := tenacityGo_ok 3 (fun _ => true) false _ result 3 1 h
    obtain ⟨fields0, title, inc, fn, hcall, ht, hi, hfn, hres⟩ :=
      update_theory_with_gpt5_ok ct an na model now (calls n) result hn
    refine ⟨dictSetJson (dictSetJson fields0 "_metadata"
        (.obj [("update_timestamp", .str now), ("model_used", .str model),
               ("papers_incorporated", .num an.length),
               ("latest_paper", title)]))
        "incorporated_analyses" (.arr (inc ++ [fn])), title, inc, fn,
      hres, ht, hi, hfn, ?_, ?_⟩
    · rw [lookupField_dictSet_ne _ _ _ _ (by decide)]
      exact lookupField_dictSet_self _ _ _
    · exact lookupField_dictSet_self _ _ _
  · intro store files sel model now ts calls na updated hne hch hok
    unfold update_cumulative_theory
    simp only [hne, Bool.false_eq_true, if_false]
    rw [hch]
    dsimp only
    rw [hok]
    rfl
  · intro store files sel model now ts calls na hfail hch
    unfold update_cumulative_theory
    cases he : (load_all_analyses files).isEmpty with
    | true => simp [he]
    | false =>
      simp only [he, Bool.false_eq_true, if_false]
      rw [hch]
      dsimp only
      cases hr : (update_theory_with_gpt5_retried store.current
          (load_all_analyses files) na model now calls).1 with
      | ok a =>
        exfalso
        unfold update_theory_with_gpt5_retried update_theory_retry tenacityRun at hr
        obtain ⟨n, hn⟩ := tenacityGo_ok 3 (fun _ => true) false _ a 3 1 hr
        cases hc : calls n with
        | ok r => exact hfail n r hc
        | apiError e =>
          rw [hc] at hn
          exact absurd hn (by simp [update_theory_with_gpt5])
        | parseError =>
          rw [hc] at hn
          exact absurd hn (by simp [update_theory_with_gpt5])
      | raised e => rfl
      | retryError e => rfl

/-- Closed instance of `theory_update_persistence`: a successful run on
one analysis file writes the updated theory and its backup. -/
theorem theory_update_persistence_witness :
    update_cumulative_theory ⟨none, []⟩
        [⟨"analysis_a.json", some (.obj [("k", .str "v")])⟩]
        none "gpt-5" "2024" "T" (fun _ => .ok (.obj [])) =
      (⟨some (.obj [("_metadata", .obj
            [("update_timestamp", .str "2024"), ("model_used", .str "gpt-5"),
             ("papers_incorporated", .num 1),
             ("latest_paper", .str "Unknown")]),
          ("incorporated_analyses", .arr [.str "analysis_a.json"])]),
        [("theory_backup_" ++ "T" ++ ".json",
          .obj [("_metadata", .obj
            [("update_timestamp", .str "2024"), ("model_used", .str "gpt-5"),
             ("papers_incorporated", .num 1),
             ("latest_paper", .str "Unknown")]),
          ("incorporated_analyses", .arr [.str "analysis_a.json"])])]⟩,
       .finished (some (.obj [("_metadata", .obj
            [("update_timestamp", .str "2024"), ("model_used", .str "gpt-5"),
             ("papers_incorporated", .num 1),
             ("latest_paper", .str "Unknown")]),
          ("incorporated_analyses", .arr [.str "analysis_a.json"])]))) :=
  theory_update_persistence.2.1 ⟨none, []⟩
    [⟨"analysis_a.json", some (.obj [("k", .str "v")])⟩]
    none "gpt-5" "2024" "T" (fun _ => .ok (.obj []))
    (.obj [("k", .str "v"), ("_filename", .str "analysis_a.json")])
    (.obj [("_metadata", .obj
        [("update_timestamp", .str "2024"), ("model_used", .str "gpt-5"),
         ("papers_incorporated", .num 1), ("latest_paper", .str "Unknown")]),
      ("incorporated_analyses", .arr [.str "analysis_a.json"])])
    (by rfl) (by rfl) (by rfl)
